import Mathlib

/-!
Verification of the task-scoped event queue and streaming generation pipeline
of the dify repository (api/core/app): the AppQueueManager listen loop
(api/core/app/apps/base_app_queue_manager.py), the RateLimit concurrency
limiter and RateLimitGenerator wrapper (api/core/app/features/rate_limiting/
rate_limit.py), and the chat worker boundary
(api/core/app/apps/chat/app_generator.py).

Machine integers do not occur: the Python code uses unbounded ints and floats
used as wall-clock readings; we embed times as Nat (one unit = one second)
and rate-limit ceilings as Int.
-/

/-! ## Python value trees and the pre-publish SQLAlchemy check -/

/-- Embedding of a Python value tree as produced by an event's model_dump().
A leaf is any value that is neither a dict nor a list; its Boolean records
whether the value is a live SQLAlchemy handle, i.e. whether
isinstance(value, DeclarativeMeta) or hasattr(value, "_sa_instance_state")
holds.  A dict is spelled as its sequence of key/value entries
(dictCons key value rest, ending in dictNil); a list as its item sequence
(listCons head tail, ending in listNil). -/
inductive PyData where
  | leaf (isSAModel : Bool)
  | dictNil
  | dictCons (key : String) (value : PyData) (rest : PyData)
  | listNil
  | listCons (head : PyData) (tail : PyData)
  deriving DecidableEq, Repr

/-- Error message raised by AppQueueManager._check_for_sqlalchemy_models
(base_app_queue_manager.py line 209). -/
def sqlalchemyErrorMsg : String :=
  "Critical Error: Passing SQLAlchemy Model instances that cause thread safety issues is not allowed."

/-- Embedding of AppQueueManager._check_for_sqlalchemy_models
(base_app_queue_manager.py lines 188-211): recurse through dict values and
list items; at any other node raise TypeError when the value is a SQLAlchemy
model instance.  Dict keys are not inspected, exactly as in the source.
Except.error models the raised TypeError. -/
def checkForSQLAlchemyModels : PyData → Except String Unit
  | .dictNil => .ok ()
  | .dictCons _ v rest =>
      match checkForSQLAlchemyModels v with
      | .error msg => .error msg
      | .ok _ => checkForSQLAlchemyModels rest
  | .listNil => .ok ()
  | .listCons x rest =>
      match checkForSQLAlchemyModels x with
      | .error msg => .error msg
      | .ok _ => checkForSQLAlchemyModels rest
  | .leaf b => if b then .error sqlalchemyErrorMsg else .ok ()

/-- Specification-side predicate: the payload graph contains a live
SQLAlchemy handle somewhere. -/
def containsSAModel : PyData → Bool
  | .leaf b => b
  | .dictNil => false
  | .dictCons _ v rest => containsSAModel v || containsSAModel rest
  | .listNil => false
  | .listCons x rest => containsSAModel x || containsSAModel rest

/-! ## Queue events -/

/-- Embedding of QueueStopEvent.StopBy; the listen loop only ever uses
USER_MANUAL. -/
inductive StopBy where
  | userManual
  deriving DecidableEq, Repr

/-- Modelled from the spec: the Event tagged union (spec section 3) of
core/app/entities/queue_entities.py, which is not part of the provided
sources.  Data-carrying kinds (chunk, messageEnd) carry their model_dump
payload as a PyData tree so that the pre-publish safety check is
non-trivial; errorEvent embeds QueueErrorEvent(error=e) with the error
text; pingEvent is QueuePingEvent; stopEvent is QueueStopEvent. -/
inductive QueueEvent where
  | chunk (payload : PyData)
  | messageEnd (payload : PyData)
  | errorEvent (message : String)
  | pingEvent
  | stopEvent (stoppedBy : StopBy)
  deriving DecidableEq, Repr

/-- Modelled from the spec: event.model_dump() as fed to the pre-publish
check.  The wrapper dict entries produced by the event classes themselves
(tag fields, message strings) are plain scalars (leaf false); only the
payload of data-carrying events can embed arbitrary values. -/
def modelDump : QueueEvent → PyData
  | .chunk p => .dictCons "event" (.leaf false) (.dictCons "payload" p .dictNil)
  | .messageEnd p => .dictCons "event" (.leaf false) (.dictCons "payload" p .dictNil)
  | .errorEvent _ => .dictCons "event" (.leaf false) (.dictCons "error" (.leaf false) .dictNil)
  | .pingEvent => .dictCons "event" (.leaf false) .dictNil
  | .stopEvent _ => .dictCons "event" (.leaf false) (.dictCons "stopped_by" (.leaf false) .dictNil)

/-- Embedding of AppQueueManager.publish (base_app_queue_manager.py lines
113-122) acting on the internal channel: run
_check_for_sqlalchemy_models(event.model_dump()) and, when it passes, hand
the event to _publish.  _publish is abstract in the provided sources;
modelled from the spec (section 4.1): it appends the event to the internal
channel.  The channel holds Optional messages: None is the close sentinel. -/
def publishEvent (e : QueueEvent) (q : List (Option QueueEvent)) :
    Except String (List (Option QueueEvent)) :=
  match checkForSQLAlchemyModels (modelDump e) with
  | .error msg => .error msg
  | .ok _ => .ok (q ++ [some e])

/-- Sequential publishes by the producer: each event goes through publish;
the first failing check aborts (the producer's TypeError propagates and the
event is never appended). -/
def publishAll : List QueueEvent → List (Option QueueEvent) →
    Except String (List (Option QueueEvent))
  | [], q => .ok q
  | e :: es, q =>
      match publishEvent e q with
      | .error msg => .error msg
      | .ok q₂ => publishAll es q₂

/-- Embedding of AppQueueManager.stop_listen (base_app_queue_manager.py
lines 99-103): enqueue the None close sentinel. -/
def stopListen (q : List (Option QueueEvent)) : List (Option QueueEvent) :=
  q ++ [none]

/-! ## The listen loop (AppQueueManager.listen, lines 59-97)

The loop is driven by three external observations per iteration k: the wall
clock read by time.time() in the finally block (env.clock k), the Redis stop
flag read by _is_stopped (env.stopFlag k), and the batch of messages the
producer thread has put on the channel before this iteration's poll
(env.pubs k, already past their own publish check).  q.get(timeout=1)
returns the head of the channel or, when the channel is empty, raises
queue.Empty after the bounded wait; both paths fall through to the finally
block. -/

/-- Configuration of one listen run: dify_config.APP_MAX_EXECUTION_TIME and
the start_time = time.time() sampled at loop entry. -/
structure ListenConfig where
  listenTimeout : Nat
  startTime : Nat

/-- External observations made by iteration k of the loop. -/
structure ListenEnv where
  clock : Nat → Nat
  stopFlag : Nat → Bool
  pubs : Nat → List QueueEvent

/-- State of one listen generator: the channel contents, the last announced
ping boundary (last_ping_time), the messages yielded so far, the trace of
self-published events (clock reading at publish, event), and whether the
loop has terminated (break on the sentinel, or an exception escaped). -/
structure ListenState where
  q : List (Option QueueEvent)
  lastPingTime : Nat
  yielded : List QueueEvent
  pubTrace : List (Nat × QueueEvent)
  finished : Bool
  deriving DecidableEq, Repr

/-- Starting state of listen on a given channel. -/
def listenInit (q₀ : List (Option QueueEvent)) : ListenState :=
  { q := q₀, lastPingTime := 0, yielded := [], pubTrace := [], finished := false }

/-- A self.publish(...) call made from inside the finally block of listen:
the same publish path as producers (check, then append).  If the check
raised, the exception would escape the generator; no event of the loop ever
trips the check, but the case is modelled by marking the run finished with
nothing appended. -/
def selfPublish (t : Nat) (e : QueueEvent) (s : ListenState) : ListenState :=
  match publishEvent e s.q with
  | .error _ => { s with finished := true }
  | .ok q₂ => { s with q := q₂, pubTrace := s.pubTrace ++ [(t, e)] }

/-- Embedding of the finally block of listen (base_app_queue_manager.py
lines 85-97), entered with the clock reading t and stop-flag reading flag of
this iteration; doBreak records whether the try body executed break (the
sentinel was dequeued).  elapsed_time = t - start_time; when
elapsed_time >= listen_timeout or the stop flag is set, publish one
QueueStopEvent(USER_MANUAL); then, when elapsed_time // 10 > last_ping_time,
publish a QueuePingEvent and set last_ping_time to elapsed_time // 10. -/
def finallyBlock (cfg : ListenConfig) (t : Nat) (flag : Bool) (doBreak : Bool)
    (s : ListenState) : ListenState :=
  let elapsed := t - cfg.startTime
  let s₁ :=
    if cfg.listenTimeout ≤ elapsed ∨ flag = true then
      selfPublish t (QueueEvent.stopEvent .userManual) s
    else s
  let s₂ :=
    if s₁.finished = true then s₁
    else if s₁.lastPingTime < elapsed / 10 then
      let s' := selfPublish t QueueEvent.pingEvent s₁
      if s'.finished = true then s' else { s' with lastPingTime := elapsed / 10 }
    else s₁
  if doBreak then { s₂ with finished := true } else s₂

/-- One iteration of the while loop of listen: producer messages arrive,
then q.get(timeout=1) either dequeues the head (yield on a message, break on
the None sentinel) or raises queue.Empty; the finally block runs in every
case.  A finished run is inert. -/
def listenStep (cfg : ListenConfig) (env : ListenEnv) (k : Nat)
    (s : ListenState) : ListenState :=
  if s.finished = true then s
  else
    match s.q ++ (env.pubs k).map some with
    | [] => finallyBlock cfg (env.clock k) (env.stopFlag k) false { s with q := [] }
    | none :: rest => finallyBlock cfg (env.clock k) (env.stopFlag k) true { s with q := rest }
    | some m :: rest =>
        finallyBlock cfg (env.clock k) (env.stopFlag k) false
          { s with q := rest, yielded := s.yielded ++ [m] }

/-- Run n iterations of the listen loop starting at iteration index k. -/
def listenRun (cfg : ListenConfig) (env : ListenEnv) : Nat → Nat → ListenState → ListenState
  | _, 0, s => s
  | k, n + 1, s => listenRun cfg env (k + 1) n (listenStep cfg env k s)

/-- Recognizer for QueueStopEvent. -/
def isStopEvent : QueueEvent → Bool
  | .stopEvent _ => true
  | _ => false

/-- Recognizer for QueuePingEvent. -/
def isPingEvent : QueueEvent → Bool
  | .pingEvent => true
  | _ => false

/-- Number of QueueStopEvent publishes in a self-publish trace. -/
def stopCount (tr : List (Nat × QueueEvent)) : Nat :=
  (tr.filter (fun p => isStopEvent p.2)).length

/-- The 10-second boundaries (elapsed_time // 10) at which the loop
published its Ping heartbeats, in publish order. -/
def pingBoundaries (start : Nat) (tr : List (Nat × QueueEvent)) : List Nat :=
  (tr.filter (fun p => isPingEvent p.2)).map (fun p => (p.1 - start) / 10)

/-! ## Task registry: belonging records and stop flags (Redis) -/

/-- Modelled from the spec: the InvokeFrom enum
(core/app/entities/app_invoke_entities.py, not part of the provided
sources); origins of a generation request (spec glossary). -/
inductive InvokeFrom where
  | serviceApi
  | webApp
  | explore
  | debugger
  deriving DecidableEq, Repr

/-- Embedding of the role resolution rule of base_app_queue_manager.py
lines 49 and 149: "account" for EXPLORE and DEBUGGER, "end-user"
otherwise. -/
def rolePfx (i : InvokeFrom) : String :=
  match i with
  | .explore => "account"
  | .debugger => "account"
  | _ => "end-user"

/-- Owner string stored for a task: the f-string "{user_prefix}-{user_id}". -/
def belongValue (i : InvokeFrom) (userId : String) : String :=
  rolePfx i ++ "-" ++ userId

/-- Redis key generate_task_belong:{task_id}
(AppQueueManager._generate_task_belong_cache_key, lines 168-176). -/
def taskBelongKey (taskId : String) : String :=
  "generate_task_belong:" ++ taskId

/-- Redis key generate_task_stopped:{task_id}
(AppQueueManager._generate_stopped_cache_key, lines 178-186). -/
def taskStoppedKey (taskId : String) : String :=
  "generate_task_stopped:" ++ taskId

/-- The string-valued part of the shared Redis store used by the queue
manager, as an association list; TTLs (1800 s / 600 s) are not modelled
because no claim observes expiry. -/
structure TaskRedis where
  entries : List (String × String)
  deriving DecidableEq, Repr

/-- redis_client.get. -/
def redisGet (r : TaskRedis) (k : String) : Option String :=
  (r.entries.find? (fun kv => decide (kv.1 = k))).map (fun kv => kv.2)

/-- redis_client.setex: overwrite the value at a key (TTL dropped). -/
def redisSetex (r : TaskRedis) (k v : String) : TaskRedis :=
  { entries := (k, v) :: r.entries.filter (fun kv => decide (kv.1 ≠ k)) }

/-- Embedding of AppQueueManager.__init__ (base_app_queue_manager.py lines
30-57) restricted to its externally visible effect: reject a missing
user_id with ValueError, otherwise record
generate_task_belong:{task_id} -> "{user_prefix}-{user_id}". -/
def appQueueManagerInit (r : TaskRedis) (taskId userId : String)
    (invokeFrom : InvokeFrom) : Except String TaskRedis :=
  if userId = "" then .error "user is required"
  else .ok (redisSetex r (taskBelongKey taskId) (belongValue invokeFrom userId))

/-- Embedding of AppQueueManager.set_stop_flag (base_app_queue_manager.py
lines 133-155): look up the belonging record; return untouched when absent
or when the caller's resolved "{user_prefix}-{user_id}" differs from the
stored owner; otherwise set generate_task_stopped:{task_id}. -/
def setStopFlag (r : TaskRedis) (taskId : String) (invokeFrom : InvokeFrom)
    (userId : String) : TaskRedis :=
  match redisGet r (taskBelongKey taskId) with
  | none => r
  | some owner =>
      if owner ≠ belongValue invokeFrom userId then r
      else redisSetex r (taskStoppedKey taskId) "1"

/-- Embedding of AppQueueManager._is_stopped (base_app_queue_manager.py
lines 157-166): the flag is set iff the stopped key exists. -/
def isStopped (r : TaskRedis) (taskId : String) : Bool :=
  (redisGet r (taskStoppedKey taskId)).isSome

/-! ## RateLimit (api/core/app/features/rate_limiting/rate_limit.py) -/

/-- Value of RateLimit._UNLIMITED_REQUEST_ID (rate_limit.py line 20). -/
def unlimitedRequestId : String := "unlimited_request_id"

/-- Error raised by RateLimit.enter on concurrency exhaustion:
AppInvokeQuotaExceededError (rate_limit.py lines 112-116).  The source
message interpolates the client id and ceiling; the constant sentence is
kept. -/
inductive RLError where
  | appInvokeQuotaExceeded (msg : String)
  deriving DecidableEq, Repr

/-- Message text of the quota error (constant part). -/
def quotaMsg : String := "Too many requests. Please try again later."

/-- Per-client slice of the shared Redis store used by RateLimit:
the value under dify:rate_limit:{client_id}:max_active_requests (none when
the key does not exist) and the hash under
dify:rate_limit:{client_id}:active_requests, mapping request_id to the
timestamp recorded at enter.  TTLs are not modelled. -/
structure RLRedis where
  maxActive : Option Int
  active : List (String × Nat)
  deriving DecidableEq, Repr

/-- In-memory state of one RateLimit instance: self.max_active_requests,
whether self.initialized has been set, and self.last_recalculate_time
(none embeds the initial float("-inf")). -/
structure RLInst where
  maxActiveRequests : Int
  inited : Bool
  lastRecalc : Option Nat
  deriving DecidableEq, Repr

/-- Embedding of RateLimit.disabled (rate_limit.py lines 130-132). -/
def RLInst.disabled (inst : RLInst) : Bool :=
  decide (inst.maxActiveRequests ≤ 0)

/-- redis_client.hset: set a hash field, overwriting an existing one. -/
def hset (h : List (String × Nat)) (k : String) (v : Nat) : List (String × Nat) :=
  if h.any (fun kv => decide (kv.1 = k)) then
    h.map (fun kv => if kv.1 = k then (kv.1, v) else kv)
  else h ++ [(k, v)]

/-- redis_client.hdel of a single field. -/
def hdel (h : List (String × Nat)) (k : String) : List (String × Nat) :=
  h.filter (fun kv => decide (kv.1 ≠ k))

/-- The refresh-due test of RateLimit.enter (rate_limit.py line 102):
time.time() - self.last_recalculate_time > _ACTIVE_REQUESTS_COUNT_FLUSH_INTERVAL
(300 s); always true while last_recalculate_time is -inf. -/
def flushDue (now : Nat) (inst : RLInst) : Bool :=
  match inst.lastRecalc with
  | none => true
  | some t => decide (300 < now - t)

/-- Embedding of RateLimit.flush_cache (rate_limit.py lines 53-90): bail
out when disabled; stamp last_recalculate_time; write the local ceiling to
Redis when use_local_value is set or the key is absent, otherwise read the
ceiling back from Redis; then, when the active-requests hash exists, drop
every entry older than _REQUEST_MAX_ALIVE_TIME (600 s).  All time readings
of the body are the single observation now. -/
def RateLimit.flushCache (useLocal : Bool) (now : Nat) (inst : RLInst)
    (r : RLRedis) : RLInst × RLRedis :=
  if inst.disabled = true then (inst, r)
  else
    let inst₁ := { inst with lastRecalc := some now }
    let p :=
      if useLocal = true ∨ r.maxActive = none then
        (inst₁, { r with maxActive := some inst₁.maxActiveRequests })
      else
        ({ inst₁ with maxActiveRequests := r.maxActive.getD 0 }, r)
    if p.2.active.isEmpty = true then p
    else (p.1, { p.2 with active := p.2.active.filter (fun kv => decide (¬ 600 < now - kv.2)) })

/-- Embedding of RateLimit.enter (rate_limit.py lines 92-119): disabled
limiters return the unlimited sentinel untouched; otherwise flush the cache
when the refresh interval has elapsed, default a falsy request_id to a
fresh uuid (genId), read the current hash length, raise
AppInvokeQuotaExceededError when it is at or above the ceiling, and
otherwise record request_id -> now and return it. -/
def RateLimit.enter (now : Nat) (reqIdOpt : Option String) (genId : String)
    (inst : RLInst) (r : RLRedis) : Except RLError (String × RLInst × RLRedis) :=
  if inst.disabled = true then .ok (unlimitedRequestId, inst, r)
  else
    let p := if flushDue now inst = true then RateLimit.flushCache false now inst r else (inst, r)
    let requestId :=
      match reqIdOpt with
      | none => genId
      | some s => if s = "" then genId else s
    if p.1.maxActiveRequests ≤ (p.2.active.length : Int) then
      .error (.appInvokeQuotaExceeded quotaMsg)
    else .ok (requestId, p.1, { p.2 with active := hset p.2.active requestId now })

/-- Embedding of RateLimit.exit (rate_limit.py lines 121-128): no-op on the
unlimited sentinel, otherwise delete the request's hash field. -/
def RateLimit.exit (reqId : String) (r : RLRedis) : RLRedis :=
  if reqId = unlimitedRequestId then r
  else { r with active := hdel r.active reqId }

/-! ## RateLimit construction: the _instance_dict singleton -/

/-- RateLimit._instance_dict: the per-process pool mapping client_id to its
instance. -/
def lookupInst (pool : List (String × RLInst)) (c : String) : Option RLInst :=
  (pool.find? (fun kv => decide (kv.1 = c))).map (fun kv => kv.2)

/-- Store an instance in the pool under its client_id (overwriting). -/
def updateInst (pool : List (String × RLInst)) (c : String) (inst : RLInst) :
    List (String × RLInst) :=
  (c, inst) :: pool.filter (fun kv => decide (kv.1 ≠ c))

/-- Embedding of RateLimit(client_id, n) construction, i.e. __new__ followed
by __init__ (rate_limit.py lines 26-51).  __new__ reuses the pooled
instance when one exists, else pools a blank one (its attributes unset:
ceiling overwritten immediately, initialized absent, last_recalculate_time
absent).  __init__ always overwrites max_active_requests with n, returns at
once when disabled or already initialized, and otherwise marks the instance
initialized and runs flush_cache(use_local_value=True). -/
def RateLimit.construct (pool : List (String × RLInst)) (r : RLRedis)
    (c : String) (n : Int) (now : Nat) : List (String × RLInst) × RLRedis :=
  let inst₀ :=
    match lookupInst pool c with
    | some i => i
    | none => { maxActiveRequests := 0, inited := false, lastRecalc := none }
  let inst₁ := { inst₀ with maxActiveRequests := n }
  if inst₁.disabled = true then (updateInst pool c inst₁, r)
  else if inst₁.inited = true then (updateInst pool c inst₁, r)
  else
    let p := RateLimit.flushCache true now { inst₁ with inited := true } r
    (updateInst pool c p.1, p.2)

/-! ## RateLimitGenerator (rate_limit.py lines 151-178) -/

/-- State of one RateLimitGenerator: self.closed, the wrapped generator
embedded as its pending chunks, and self.request_id. -/
structure RateLimitGenState where
  closed : Bool
  remaining : List String
  requestId : String
  deriving DecidableEq, Repr

/-- Embedding of RateLimitGenerator.close (rate_limit.py lines 174-178).
The source's body is
    if not self.closed:
        self.closed = True
        self.rate_limit.exit
where the last line only evaluates the bound method self.rate_limit.exit
without calling it, so no RateLimit.exit call and hence no hdel of
request_id is performed; the Redis state is returned unchanged, exactly as
in the source. -/
def RateLimitGenState.close (g : RateLimitGenState) (r : RLRedis) :
    RateLimitGenState × RLRedis :=
  if g.closed = true then (g, r)
  else ({ g with closed := true }, r)

/-- Embedding of RateLimitGenerator.__next__ (rate_limit.py lines 164-172):
raise StopIteration (none) when already closed; otherwise take the next
chunk of the wrapped generator; when it is exhausted (or raises), the
except-branch calls close() and re-raises, here surfacing none. -/
def RateLimitGenState.next (g : RateLimitGenState) (r : RLRedis) :
    Option String × RateLimitGenState × RLRedis :=
  if g.closed = true then (none, g, r)
  else
    match g.remaining with
    | [] =>
        let p := g.close r
        (none, p.1, p.2)
    | x :: rest => (some x, { g with remaining := rest }, r)

/-! ## The chat worker boundary (chat/app_generator.py lines 199-252) -/

/-- Exceptions that the body of _generate_worker (conversation/message
lookup and ChatAppRunner.run) can raise, one constructor per except-clause
of the source: GenerateTaskStoppedError, InvokeAuthorizationError,
ValidationError, ValueError, and any other Exception. -/
inductive WorkerException where
  | generateTaskStopped
  | invokeAuthorizationError (msg : String)
  | validationError (msg : String)
  | valueError (msg : String)
  | otherError (msg : String)
  deriving DecidableEq, Repr

/-- Embedding of the exception handling of ChatAppGenerator._generate_worker
(chat/app_generator.py lines 217-252) around an opaque body that either
returns or raises; body effects on the channel other than the boundary's
own publishes are outside the model.  GenerateTaskStoppedError is swallowed;
InvokeAuthorizationError is republished as a fresh
InvokeAuthorizationError with a fixed message; ValidationError, ValueError
and any other Exception are republished verbatim via
queue_manager.publish_error, which wraps them in QueueErrorEvent and sends
them through the same publish path as data events
(base_app_queue_manager.py lines 105-111).  The Except.error result would
mean an exception escaped the worker as a language-level fault. -/
def generateWorker (body : Except WorkerException Unit)
    (q : List (Option QueueEvent)) : Except String (List (Option QueueEvent)) :=
  match body with
  | .ok _ => .ok q
  | .error .generateTaskStopped => .ok q
  | .error (.invokeAuthorizationError _) =>
      publishEvent (.errorEvent "提供的API key不正确") q
  | .error (.validationError m) => publishEvent (.errorEvent m) q
  | .error (.valueError m) => publishEvent (.errorEvent m) q
  | .error (.otherError m) => publishEvent (.errorEvent m) q

/-! ## Helper lemmas -/

theorem check_eq (d : PyData) :
    checkForSQLAlchemyModels d =
      (if containsSAModel d = true then .error sqlalchemyErrorMsg else .ok ()) := by
  induction d with
  | leaf b => cases b <;> simp [checkForSQLAlchemyModels, containsSAModel]
  | dictNil => simp [checkForSQLAlchemyModels, containsSAModel]
  | dictCons k v rest ihv ihr =>
      cases hv : containsSAModel v <;> cases hr : containsSAModel rest <;>
        simp [checkForSQLAlchemyModels, containsSAModel, ihv, ihr, hv, hr]
  | listNil => simp [checkForSQLAlchemyModels, containsSAModel]
  | listCons x rest ihx ihr =>
      cases hx : containsSAModel x <;> cases hr : containsSAModel rest <;>
        simp [checkForSQLAlchemyModels, containsSAModel, ihx, ihr, hx, hr]

theorem publishEvent_ok (e : QueueEvent) (q q₂ : List (Option QueueEvent))
    (h : publishEvent e q = .ok q₂) : q₂ = q ++ [some e] := by
  unfold publishEvent at h
  rw [check_eq] at h
  by_cases hc : containsSAModel (modelDump e) = true <;> simp [hc] at h
  exact h.symm

theorem publishAll_ok (es : List QueueEvent) :
    ∀ (q q₂ : List (Option QueueEvent)), publishAll es q = .ok q₂ →
      q₂ = q ++ es.map some := by
  induction es with
  | nil =>
      intro q q₂ h
      simp [publishAll] at h
      simp [h]
  | cons e es ih =>
      intro q q₂ h
      unfold publishAll at h
      cases hp : publishEvent e q with
      | error m => rw [hp] at h; exact absurd h (by simp)
      | ok q₁ =>
          rw [hp] at h
          have := ih q₁ q₂ h
          rw [publishEvent_ok e q q₁ hp] at this
          simpa [List.append_assoc] using this

theorem selfPublish_stop (t : Nat) (s : ListenState) :
    selfPublish t (QueueEvent.stopEvent .userManual) s =
      { s with q := s.q ++ [some (QueueEvent.stopEvent .userManual)],
               pubTrace := s.pubTrace ++ [(t, QueueEvent.stopEvent .userManual)] } := rfl

theorem selfPublish_ping (t : Nat) (s : ListenState) :
    selfPublish t QueueEvent.pingEvent s =
      { s with q := s.q ++ [some QueueEvent.pingEvent],
               pubTrace := s.pubTrace ++ [(t, QueueEvent.pingEvent)] } := rfl

theorem stopCount_append (tr tr' : List (Nat × QueueEvent)) :
    stopCount (tr ++ tr') = stopCount tr + stopCount tr' := by
  simp [stopCount, List.filter_append]

theorem finallyBlock_spec (cfg : ListenConfig) (t : Nat) (flag brk : Bool)
    (s : ListenState) (hfin : s.finished = false) :
    (finallyBlock cfg t flag brk s).finished = brk
    ∧ (finallyBlock cfg t flag brk s).yielded = s.yielded
    ∧ stopCount (finallyBlock cfg t flag brk s).pubTrace
        = stopCount s.pubTrace
            + (if cfg.listenTimeout ≤ t - cfg.startTime ∨ flag = true then 1 else 0) := by
  by_cases hstop : cfg.listenTimeout ≤ t - cfg.startTime ∨ flag = true <;>
    by_cases hping : s.lastPingTime < (t - cfg.startTime) / 10 <;>
      cases brk <;>
        simp [finallyBlock, hstop, hping, hfin, selfPublish_stop, selfPublish_ping,
          stopCount_append, stopCount, isStopEvent]

theorem finallyBlock_q (cfg : ListenConfig) (t : Nat) (flag brk : Bool)
    (s : ListenState) (hfin : s.finished = false) :
    ∃ tail, (finallyBlock cfg t flag brk s).q = s.q ++ tail := by
  by_cases hstop : cfg.listenTimeout ≤ t - cfg.startTime ∨ flag = true <;>
    by_cases hping : s.lastPingTime < (t - cfg.startTime) / 10 <;>
      cases brk <;>
        simp [finallyBlock, hstop, hping, hfin, selfPublish_stop, selfPublish_ping]

theorem listenStep_finished (cfg : ListenConfig) (env : ListenEnv) (k : Nat)
    (s : ListenState) (h : s.finished = true) : listenStep cfg env k s = s := by
  simp [listenStep, h]

theorem listenRun_finished (cfg : ListenConfig) (env : ListenEnv) :
    ∀ (n k : Nat) (s : ListenState), s.finished = true → listenRun cfg env k n s = s := by
  intro n
  induction n with
  | zero => intro k s _; rfl
  | succ n ih =>
      intro k s h
      show listenRun cfg env (k + 1) n (listenStep cfg env k s) = s
      rw [listenStep_finished cfg env k s h]
      exact ih (k + 1) s h

theorem listenRun_drain (cfg : ListenConfig) (env : ListenEnv)
    (hpubs : ∀ j, env.pubs j = []) :
    ∀ (rest : List QueueEvent) (junk : List (Option QueueEvent)) (k : Nat)
      (s : ListenState), s.finished = false →
      s.q = rest.map some ++ none :: junk →
      (listenRun cfg env k (rest.length + 1) s).yielded = s.yielded ++ rest
      ∧ (listenRun cfg env k (rest.length + 1) s).finished = true := by
  intro rest
  induction rest with
  | nil =>
      intro junk k s hfin hq
      have hsc : s.q ++ (env.pubs k).map some = none :: junk := by
        rw [hq, hpubs k]; simp
      show ((listenRun cfg env (k + 1) 0 (listenStep cfg env k s)).yielded = s.yielded ++ [])
        ∧ ((listenRun cfg env (k + 1) 0 (listenStep cfg env k s)).finished = true)
      have hstep : listenStep cfg env k s
          = finallyBlock cfg (env.clock k) (env.stopFlag k) true { s with q := junk } := by
        unfold listenStep
        rw [if_neg (by rw [hfin]; exact Bool.false_ne_true), hsc]
      rw [listenRun, hstep]
      have hspec := finallyBlock_spec cfg (env.clock k) (env.stopFlag k) true
        { s with q := junk } (by simpa using hfin)
      exact ⟨by rw [hspec.2.1]; simp, hspec.1⟩
  | cons e rest ih =>
      intro junk k s hfin hq
      have hsc : s.q ++ (env.pubs k).map some
          = some e :: (rest.map some ++ none :: junk) := by
        rw [hq, hpubs k]; simp
      have hstep : listenStep cfg env k s
          = finallyBlock cfg (env.clock k) (env.stopFlag k) false
              { s with q := rest.map some ++ none :: junk,
                       yielded := s.yielded ++ [e] } := by
        unfold listenStep
        rw [if_neg (by rw [hfin]; exact Bool.false_ne_true), hsc]
      show ((listenRun cfg env (k + 1) (rest.length + 1) (listenStep cfg env k s)).yielded
          = s.yielded ++ (e :: rest))
        ∧ ((listenRun cfg env (k + 1) (rest.length + 1) (listenStep cfg env k s)).finished = true)
      rw [hstep]
      set s₁ : ListenState :=
        { s with q := rest.map some ++ none :: junk, yielded := s.yielded ++ [e] } with hs₁
      have h₁fin : s₁.finished = false := by simpa [hs₁] using hfin
      have hspec := finallyBlock_spec cfg (env.clock k) (env.stopFlag k) false s₁ h₁fin
      obtain ⟨tail, htail⟩ := finallyBlock_q cfg (env.clock k) (env.stopFlag k) false s₁ h₁fin
      have hq₂ : (finallyBlock cfg (env.clock k) (env.stopFlag k) false s₁).q
          = rest.map some ++ none :: (junk ++ tail) := by
        rw [htail]; simp [hs₁]
      have := ih (junk ++ tail) (k + 1)
        (finallyBlock cfg (env.clock k) (env.stopFlag k) false s₁) hspec.1 hq₂
      refine ⟨?_, this.2⟩
      rw [this.1, hspec.2.1]
      simp [hs₁]

theorem pingBoundaries_append (start : Nat) (tr tr' : List (Nat × QueueEvent)) :
    pingBoundaries start (tr ++ tr')
      = pingBoundaries start tr ++ pingBoundaries start tr' := by
  simp [pingBoundaries, List.filter_append]

/-- Invariant of the heartbeat mechanism: the boundaries announced so far
are strictly increasing and all of them are at most last_ping_time. -/
def PingInv (start : Nat) (s : ListenState) : Prop :=
  List.Pairwise (· < ·) (pingBoundaries start s.pubTrace)
  ∧ ∀ b ∈ pingBoundaries start s.pubTrace, b ≤ s.lastPingTime

theorem finallyBlock_fields (cfg : ListenConfig) (t : Nat) (flag brk : Bool)
    (s : ListenState) (hfin : s.finished = false) :
    ∃ sp : List (Nat × QueueEvent),
      pingBoundaries cfg.startTime sp = []
      ∧ (((finallyBlock cfg t flag brk s).pubTrace = s.pubTrace ++ sp
            ∧ (finallyBlock cfg t flag brk s).lastPingTime = s.lastPingTime)
        ∨ (s.lastPingTime < (t - cfg.startTime) / 10
            ∧ (finallyBlock cfg t flag brk s).pubTrace
                = (s.pubTrace ++ sp) ++ [(t, QueueEvent.pingEvent)]
            ∧ (finallyBlock cfg t flag brk s).lastPingTime = (t - cfg.startTime) / 10)) := by
  by_cases hstop : cfg.listenTimeout ≤ t - cfg.startTime ∨ flag = true <;>
    by_cases hping : s.lastPingTime < (t - cfg.startTime) / 10
  · refine ⟨[(t, QueueEvent.stopEvent .userManual)], rfl, Or.inr ⟨hping, ?_, ?_⟩⟩ <;>
      cases brk <;>
        simp [finallyBlock, hstop, hping, hfin, selfPublish_stop, selfPublish_ping]
  · refine ⟨[(t, QueueEvent.stopEvent .userManual)], rfl, Or.inl ⟨?_, ?_⟩⟩ <;>
      cases brk <;>
        simp [finallyBlock, hstop, hping, hfin, selfPublish_stop, selfPublish_ping]
  · refine ⟨[], rfl, Or.inr ⟨hping, ?_, ?_⟩⟩ <;>
      cases brk <;>
        simp [finallyBlock, hstop, hping, hfin, selfPublish_stop, selfPublish_ping]
  · refine ⟨[], rfl, Or.inl ⟨?_, ?_⟩⟩ <;>
      cases brk <;>
        simp [finallyBlock, hstop, hping, hfin, selfPublish_stop, selfPublish_ping]

theorem finallyBlock_pingInv (cfg : ListenConfig) (t : Nat) (flag brk : Bool)
    (s : ListenState) (hfin : s.finished = false) (h : PingInv cfg.startTime s) :
    PingInv cfg.startTime (finallyBlock cfg t flag brk s) := by
  obtain ⟨hpw, hub⟩ := h
  obtain ⟨sp, hsp, hcase⟩ := finallyBlock_fields cfg t flag brk s hfin
  have hone : pingBoundaries cfg.startTime [(t, QueueEvent.pingEvent)]
      = [(t - cfg.startTime) / 10] := rfl
  rcases hcase with ⟨htr, hl⟩ | ⟨hlt, htr, hl⟩
  · constructor
    · rw [htr, pingBoundaries_append, hsp, List.append_nil]
      exact hpw
    · intro b hb
      rw [htr, pingBoundaries_append, hsp, List.append_nil] at hb
      rw [hl]
      exact hub b hb
  · constructor
    · rw [htr, pingBoundaries_append, pingBoundaries_append, hsp, List.append_nil, hone,
        List.pairwise_append]
      refine ⟨hpw, List.pairwise_singleton _ _, ?_⟩
      intro a ha b hb
      rw [List.mem_singleton] at hb
      subst hb
      exact lt_of_le_of_lt (hub a ha) hlt
    · intro b hb
      rw [htr, pingBoundaries_append, pingBoundaries_append, hsp, List.append_nil, hone] at hb
      rw [hl]
      rcases List.mem_append.mp hb with hb | hb
      · exact le_trans (hub b hb) (le_of_lt hlt)
      · rw [List.mem_singleton] at hb
        exact le_of_eq hb

theorem listenStep_pingInv (cfg : ListenConfig) (env : ListenEnv) (k : Nat)
    (s : ListenState) (h : PingInv cfg.startTime s) :
    PingInv cfg.startTime (listenStep cfg env k s) := by
  by_cases hfin : s.finished = true
  · rw [listenStep_finished cfg env k s hfin]
    exact h
  · have hfin' : s.finished = false := by
      cases hf : s.finished
      · rfl
      · exact absurd hf hfin
    unfold listenStep
    rw [if_neg (by rw [hfin']; exact Bool.false_ne_true)]
    cases hsc : s.q ++ (env.pubs k).map some with
    | nil =>
        exact finallyBlock_pingInv cfg (env.clock k) (env.stopFlag k) false _
          (by simpa using hfin') ⟨h.1, h.2⟩
    | cons o rest =>
        cases o with
        | none =>
            exact finallyBlock_pingInv cfg (env.clock k) (env.stopFlag k) true _
              (by simpa using hfin') ⟨h.1, h.2⟩
        | some m =>
            exact finallyBlock_pingInv cfg (env.clock k) (env.stopFlag k) false _
              (by simpa using hfin') ⟨h.1, h.2⟩

theorem listenRun_pingInv (cfg : ListenConfig) (env : ListenEnv) :
    ∀ (n k : Nat) (s : ListenState), PingInv cfg.startTime s →
      PingInv cfg.startTime (listenRun cfg env k n s) := by
  intro n
  induction n with
  | zero => intro k s h; exact h
  | succ n ih =>
      intro k s h
      exact ih (k + 1) (listenStep cfg env k s) (listenStep_pingInv cfg env k s h)

theorem listenStep_stop (cfg : ListenConfig) (env : ListenEnv) (k : Nat)
    (s : ListenState) (hfin : s.finished = false)
    (hcond : cfg.listenTimeout ≤ env.clock k - cfg.startTime ∨ env.stopFlag k = true) :
    stopCount (listenStep cfg env k s).pubTrace = stopCount s.pubTrace + 1
    ∧ ((listenStep cfg env k s).finished = true →
        (s.q ++ (env.pubs k).map some).head? = some none) := by
  cases hsc : s.q ++ (env.pubs k).map some with
  | nil =>
      have hstep : listenStep cfg env k s
          = finallyBlock cfg (env.clock k) (env.stopFlag k) false { s with q := [] } := by
        unfold listenStep
        rw [if_neg (by rw [hfin]; exact Bool.false_ne_true), hsc]
      have hspec := finallyBlock_spec cfg (env.clock k) (env.stopFlag k) false
        { s with q := [] } (by simpa using hfin)
      rw [hstep]
      refine ⟨?_, ?_⟩
      · rw [hspec.2.2]
        simp [hcond]
      · intro hfi
        rw [hspec.1] at hfi
        exact absurd hfi Bool.false_ne_true
  | cons o rest =>
      cases o with
      | none =>
          have hstep : listenStep cfg env k s
              = finallyBlock cfg (env.clock k) (env.stopFlag k) true { s with q := rest } := by
            unfold listenStep
            rw [if_neg (by rw [hfin]; exact Bool.false_ne_true), hsc]
          have hspec := finallyBlock_spec cfg (env.clock k) (env.stopFlag k) true
            { s with q := rest } (by simpa using hfin)
          rw [hstep]
          refine ⟨?_, ?_⟩
          · rw [hspec.2.2]
            simp [hcond]
          · intro _
            rfl
      | some m =>
          have hstep : listenStep cfg env k s
              = finallyBlock cfg (env.clock k) (env.stopFlag k) false
                  { s with q := rest, yielded := s.yielded ++ [m] } := by
            unfold listenStep
            rw [if_neg (by rw [hfin]; exact Bool.false_ne_true), hsc]
          have hspec := finallyBlock_spec cfg (env.clock k) (env.stopFlag k) false
            { s with q := rest, yielded := s.yielded ++ [m] } (by simpa using hfin)
          rw [hstep]
          refine ⟨?_, ?_⟩
          · rw [hspec.2.2]
            simp [hcond]
          · intro hfi
            rw [hspec.1] at hfi
            exact absurd hfi Bool.false_ne_true

theorem rolePfx_cases (i : InvokeFrom) :
    rolePfx i = "account" ∨ rolePfx i = "end-user" := by
  cases i <;> simp [rolePfx]

theorem strCancel (p u₁ u₂ : String) (h : p ++ "-" ++ u₁ = p ++ "-" ++ u₂) :
    u₁ = u₂ := by
  have hd := congrArg String.data h
  simp only [String.data_append] at hd
  have h2 := List.append_cancel_left hd
  cases u₁
  cases u₂
  exact congrArg String.mk h2

theorem strAccEnd (u₁ u₂ : String)
    (h : "account" ++ "-" ++ u₁ = "end-user" ++ "-" ++ u₂) : False := by
  have hd := congrArg String.data h
  simp only [String.data_append] at hd
  simp only [List.cons_append, List.nil_append, List.cons.injEq] at hd
  exact absurd hd.1 (by decide)

theorem belongValue_inj (i₁ i₂ : InvokeFrom) (u₁ u₂ : String)
    (h : belongValue i₁ u₁ = belongValue i₂ u₂) :
    rolePfx i₁ = rolePfx i₂ ∧ u₁ = u₂ := by
  unfold belongValue at h
  rcases rolePfx_cases i₁ with h₁ | h₁ <;> rcases rolePfx_cases i₂ with h₂ | h₂ <;>
    rw [h₁, h₂] at h ⊢
  · exact ⟨rfl, strCancel _ _ _ h⟩
  · exact absurd h (fun hh => strAccEnd _ _ hh)
  · exact absurd h.symm (fun hh => strAccEnd _ _ hh)
  · exact ⟨rfl, strCancel _ _ _ h⟩

theorem redisGet_setex_same (r : TaskRedis) (k v : String) :
    redisGet (redisSetex r k v) k = some v := by
  simp [redisGet, redisSetex, List.find?]

theorem hdel_length_lt (h : List (String × Nat)) (req : String) (ts : Nat)
    (hmem : (req, ts) ∈ h) : (hdel h req).length < h.length := by
  induction h with
  | nil => cases hmem
  | cons kv t ih =>
      rcases List.mem_cons.mp hmem with heq | hmem'
      · rw [← heq]
        simp only [hdel, List.filter]
        rw [show (decide ((req, ts).1 ≠ req)) = false by simp]
        exact Nat.lt_succ_of_le (List.length_filter_le _ t)
      · by_cases hk : kv.1 = req
        · simp only [hdel, List.filter]
          rw [show (decide (kv.1 ≠ req)) = false by simp [hk]]
          exact Nat.lt_succ_of_le (List.length_filter_le _ t)
        · simp only [hdel, List.filter]
          rw [show (decide (kv.1 ≠ req)) = true by simp [hk]]
          simpa [hdel] using Nat.succ_lt_succ (ih hmem')

/-! ## Claim C1 -/

/-- C1: for every finite sequence of events published to the queue followed
by the stop_listen close sentinel, with the maximum execution time never
reached and the stop flag never set during the drain, listen() yields
exactly the published events in publish order and then terminates, yielding
nothing further. -/
theorem C1_listen_yields_in_order (cfg : ListenConfig) (env : ListenEnv)
    (es : List QueueEvent) (q₀ : List (Option QueueEvent))
    (hpub : publishAll es [] = .ok q₀)
    (hflag : ∀ j, env.stopFlag j = false)
    (hpubs : ∀ j, env.pubs j = [])
    (htime : ∀ j, j ≤ es.length → env.clock j - cfg.startTime < cfg.listenTimeout) :
    (listenRun cfg env 0 (es.length + 1) (listenInit (stopListen q₀))).yielded = es
    ∧ (listenRun cfg env 0 (es.length + 1) (listenInit (stopListen q₀))).finished = true
    ∧ ∀ (k m : Nat),
        (listenRun cfg env k m
          (listenRun cfg env 0 (es.length + 1) (listenInit (stopListen q₀)))).yielded
          = es := by
  have hq0 : q₀ = es.map some := by simpa using publishAll_ok es [] q₀ hpub
  have hqinit : (listenInit (stopListen q₀)).q = es.map some ++ none :: [] := by
    simp [listenInit, stopListen, hq0]
  have hd := listenRun_drain cfg env hpubs es [] 0 (listenInit (stopListen q₀)) rfl hqinit
  have hy : (listenRun cfg env 0 (es.length + 1) (listenInit (stopListen q₀))).yielded = es := by
    simpa [listenInit] using hd.1
  refine ⟨hy, hd.2, ?_⟩
  intro k m
  rw [listenRun_finished cfg env m k _ hd.2]
  exact hy

def c1cfg : ListenConfig := { listenTimeout := 60, startTime := 0 }

def c1env : ListenEnv :=
  { clock := fun _ => 1, stopFlag := fun _ => false, pubs := fun _ => [] }

def c1es : List QueueEvent :=
  [QueueEvent.chunk (PyData.leaf false), QueueEvent.errorEvent "x"]

def c1q : List (Option QueueEvent) :=
  [some (QueueEvent.chunk (PyData.leaf false)), some (QueueEvent.errorEvent "x")]

/-- Witness for C1 at a concrete two-event run. -/
theorem C1_witness :
    (listenRun c1cfg c1env 0 (c1es.length + 1) (listenInit (stopListen c1q))).yielded = c1es
    ∧ (listenRun c1cfg c1env 0 (c1es.length + 1) (listenInit (stopListen c1q))).finished = true
    ∧ (listenRun c1cfg c1env 2 5
        (listenRun c1cfg c1env 0 (c1es.length + 1) (listenInit (stopListen c1q)))).yielded
        = c1es := by
  have h := C1_listen_yields_in_order c1cfg c1env c1es c1q rfl (fun _ => rfl) (fun _ => rfl)
    (fun j _ => by norm_num [c1env, c1cfg])
  exact ⟨h.1, h.2.1, h.2.2 2 5⟩

/-! ## Claim C2 -/

def c2cfg : ListenConfig := { listenTimeout := 5, startTime := 0 }

def c2env : ListenEnv :=
  { clock := fun k => 10 + k,
    stopFlag := fun _ => false,
    pubs := fun _ => [QueueEvent.chunk (PyData.leaf false)] }

/-- C2 counterexample: at a concrete run whose first poll observes
elapsed time 10 at timeout 5, the poll publishes the synthetic Stop event
exactly once, not twice; and after 12 polls past the timeout, with a data
event published before every poll, the loop has published at least one
Stop event but has not terminated. -/
theorem C2_counterexample :
    stopCount (listenRun c2cfg c2env 0 1 (listenInit [])).pubTrace = 1
    ∧ stopCount (listenRun c2cfg c2env 0 1 (listenInit [])).pubTrace ≠ 2
    ∧ (listenRun c2cfg c2env 0 12 (listenInit [])).finished = false
    ∧ 1 ≤ stopCount (listenRun c2cfg c2env 0 12 (listenInit [])).pubTrace := by
  refine ⟨by decide, by decide, by decide, by decide⟩

/-- C2 (amended): whenever a poll of listen() observes elapsed time at or
past the configured max execution time, or observes the stop flag set, it
publishes the synthetic Stop(USER_MANUAL) event exactly once during that
poll, through the same publish path used by producers; such a poll does not
terminate the loop by itself: an iteration terminates the loop only when it
dequeues the None close sentinel. -/
theorem C2_stop_published_once_per_poll (cfg : ListenConfig) (env : ListenEnv)
    (k : Nat) (s : ListenState) (hfin : s.finished = false)
    (hcond : cfg.listenTimeout ≤ env.clock k - cfg.startTime ∨ env.stopFlag k = true) :
    stopCount (listenStep cfg env k s).pubTrace = stopCount s.pubTrace + 1
    ∧ ((listenStep cfg env k s).finished = true →
        (s.q ++ (env.pubs k).map some).head? = some none) :=
  listenStep_stop cfg env k s hfin hcond

/-- Witness for the amended C2 at the concrete timed-out first poll. -/
theorem C2_witness :
    stopCount (listenStep c2cfg c2env 0 (listenInit [])).pubTrace = 1 := by
  have h := (C2_stop_published_once_per_poll c2cfg c2env 0 (listenInit []) rfl
    (Or.inl (by decide))).1
  simpa [listenInit, stopCount] using h

/-! ## Claim C7 -/

/-- C7: during any single run of listen(), Ping heartbeats are published
with strictly increasing elapsed-time-div-10 boundaries, hence at most once
per 10-second boundary and never twice within the same boundary; and a
terminated loop publishes nothing further. -/
theorem C7_ping_once_per_boundary (cfg : ListenConfig) (env : ListenEnv)
    (n : Nat) (q₀ : List (Option QueueEvent)) :
    List.Pairwise (· < ·)
      (pingBoundaries cfg.startTime (listenRun cfg env 0 n (listenInit q₀)).pubTrace)
    ∧ ∀ (k m : Nat) (s : ListenState), s.finished = true →
        (listenRun cfg env k m s).pubTrace = s.pubTrace := by
  constructor
  · refine (listenRun_pingInv cfg env n 0 (listenInit q₀) ⟨?_, ?_⟩).1
    · simp [listenInit, pingBoundaries]
    · simp [listenInit, pingBoundaries]
  · intro k m s hs
    rw [listenRun_finished cfg env m k s hs]

def c7cfg : ListenConfig := { listenTimeout := 100, startTime := 0 }

def c7env : ListenEnv :=
  { clock := fun k => 11 * k, stopFlag := fun _ => false, pubs := fun _ => [] }

def c7s : ListenState :=
  { q := [], lastPingTime := 0, yielded := [], pubTrace := [(3, QueueEvent.pingEvent)],
    finished := true }

/-- Witness for C7 at a concrete run that crosses several boundaries. -/
theorem C7_witness :
    List.Pairwise (· < ·)
      (pingBoundaries c7cfg.startTime (listenRun c7cfg c7env 0 4 (listenInit [])).pubTrace)
    ∧ (listenRun c7cfg c7env 1 3 c7s).pubTrace = c7s.pubTrace :=
  ⟨(C7_ping_once_per_boundary c7cfg c7env 4 []).1,
   (C7_ping_once_per_boundary c7cfg c7env 4 []).2 1 3 c7s rfl⟩

/-! ## Claim C4 -/

/-- C4: for a task registered at construction under
"{user_prefix}-{user_id}" (prefix account for EXPLORE/DEBUGGER, end-user
otherwise), a set_stop_flag call whose resolved prefix-user pair differs
from the stored owner, or whose task has no registry entry, writes nothing:
the Redis state is unchanged, so the stop flag stays unset and the task's
listen loop is never terminated by the call. -/
theorem C4_stop_flag_isolation (r : TaskRedis) (taskId u₁ u₂ : String)
    (i₁ i₂ : InvokeFrom) (r' : TaskRedis)
    (hinit : appQueueManagerInit r taskId u₁ i₁ = .ok r')
    (hdiff : rolePfx i₂ ≠ rolePfx i₁ ∨ u₂ ≠ u₁) :
    setStopFlag r' taskId i₂ u₂ = r'
    ∧ isStopped (setStopFlag r' taskId i₂ u₂) taskId = isStopped r' taskId
    ∧ ∀ rr : TaskRedis, redisGet rr (taskBelongKey taskId) = none →
        setStopFlag rr taskId i₂ u₂ = rr := by
  have hr' : r' = redisSetex r (taskBelongKey taskId) (belongValue i₁ u₁) := by
    unfold appQueueManagerInit at hinit
    by_cases hu : u₁ = ""
    · rw [if_pos hu] at hinit
      cases hinit
    · rw [if_neg hu] at hinit
      cases hinit
      rfl
  have hget : redisGet r' (taskBelongKey taskId) = some (belongValue i₁ u₁) := by
    rw [hr']
    exact redisGet_setex_same r (taskBelongKey taskId) (belongValue i₁ u₁)
  have hne : belongValue i₁ u₁ ≠ belongValue i₂ u₂ := by
    intro he
    obtain ⟨hp, hu⟩ := belongValue_inj i₁ i₂ u₁ u₂ he
    rcases hdiff with hd | hd
    · exact hd hp.symm
    · exact hd hu.symm
  have hmain : setStopFlag r' taskId i₂ u₂ = r' := by
    simp [setStopFlag, hget, hne]
  refine ⟨hmain, by rw [hmain], ?_⟩
  intro rr hrr
  simp [setStopFlag, hrr]

def c4r : TaskRedis := { entries := [] }

def c4r' : TaskRedis := { entries := [("generate_task_belong:t", "account-u1")] }

/-- Witness for C4: task t registered by user u1 from the explore console;
a SERVICE_API caller with the same user id cannot set its stop flag, and a
call for an unknown task writes nothing. -/
theorem C4_witness :
    setStopFlag c4r' "t" InvokeFrom.serviceApi "u1" = c4r'
    ∧ isStopped (setStopFlag c4r' "t" InvokeFrom.serviceApi "u1") "t" = isStopped c4r' "t"
    ∧ setStopFlag c4r "t" InvokeFrom.serviceApi "u1" = c4r := by
  have h := C4_stop_flag_isolation c4r "t" "u1" "u1" InvokeFrom.explore
    InvokeFrom.serviceApi c4r' rfl (Or.inl (by decide))
  exact ⟨h.1, h.2.1, h.2.2 c4r rfl⟩

/-! ## Claim C6 -/

/-- C6: publish first runs the structural scan of the event's model_dump
payload graph (recursing through dicts and lists) and fails fast with the
TypeError when any value is a live SQLAlchemy handle; the error result
carries no updated channel, so no such event is ever appended. -/
theorem C6_publish_rejects_models (e : QueueEvent) (q : List (Option QueueEvent))
    (h : containsSAModel (modelDump e) = true) :
    publishEvent e q = .error sqlalchemyErrorMsg := by
  unfold publishEvent
  rw [check_eq, if_pos h]

/-- Witness for C6: a chunk whose payload hides a model instance inside a
list inside a dict is rejected by publish. -/
theorem C6_witness :
    containsSAModel (modelDump (QueueEvent.chunk
      (PyData.dictCons "m" (PyData.listCons (PyData.leaf true) PyData.listNil)
        PyData.dictNil))) = true
    ∧ publishEvent (QueueEvent.chunk
        (PyData.dictCons "m" (PyData.listCons (PyData.leaf true) PyData.listNil)
          PyData.dictNil)) [] = .error sqlalchemyErrorMsg :=
  ⟨rfl, C6_publish_rejects_models _ [] rfl⟩

/-! ## Claim C8 -/

/-- C8: every exception raised inside the worker execution context is
caught at the worker boundary: the worker never surfaces a language-level
fault (the result is always ok), GenerateTaskStoppedError alone is
swallowed silently with nothing published, and every other exception is
republished as exactly one Error event appended to the same queue used for
data events. -/
theorem C8_worker_boundary (body : Except WorkerException Unit)
    (q : List (Option QueueEvent)) :
    (∃ q₂, generateWorker body q = .ok q₂)
    ∧ generateWorker (.error .generateTaskStopped) q = .ok q
    ∧ ∀ e : WorkerException, e ≠ .generateTaskStopped →
        ∃ m, generateWorker (.error e) q = .ok (q ++ [some (QueueEvent.errorEvent m)]) := by
  refine ⟨?_, rfl, ?_⟩
  · cases body with
    | ok u => exact ⟨q, rfl⟩
    | error e => cases e <;> exact ⟨_, rfl⟩
  · intro e he
    cases e with
    | generateTaskStopped => exact absurd rfl he
    | invokeAuthorizationError m => exact ⟨_, rfl⟩
    | validationError m => exact ⟨m, rfl⟩
    | valueError m => exact ⟨m, rfl⟩
    | otherError m => exact ⟨m, rfl⟩

/-- Witness for C8: a stopped worker publishes nothing; a crashed worker
publishes exactly one Error event through the queue. -/
theorem C8_witness :
    generateWorker (.error .generateTaskStopped) [some QueueEvent.pingEvent]
        = .ok [some QueueEvent.pingEvent]
    ∧ generateWorker (.error (.otherError "boom")) []
        = .ok [some (QueueEvent.errorEvent "boom")] :=
  ⟨(C8_worker_boundary (.error .generateTaskStopped) [some QueueEvent.pingEvent]).2.1,
   rfl⟩

/-! ## Claim C3 -/

/-- C3 (code-bug evidence): draining an exhausted wrapped generator makes
__next__ raise StopIteration and call close(), which marks the wrapper
closed but — because rate_limit.py line 178 only evaluates the bound method
self.rate_limit.exit without calling it — never removes the membership
record: the active-requests hash still contains request_id r afterwards,
and a direct close() leaves the store unchanged as well, whereas an actual
RateLimit.exit call would have removed the record. -/
theorem C3_exit_never_called :
    (RateLimitGenState.next { closed := false, remaining := [], requestId := "r" }
      { maxActive := some 5, active := [("r", 0)] }).1 = none
    ∧ (RateLimitGenState.next { closed := false, remaining := [], requestId := "r" }
        { maxActive := some 5, active := [("r", 0)] }).2.1.closed = true
    ∧ (RateLimitGenState.next { closed := false, remaining := [], requestId := "r" }
        { maxActive := some 5, active := [("r", 0)] }).2.2.active = [("r", 0)]
    ∧ (RateLimitGenState.close { closed := false, remaining := ["x"], requestId := "r" }
        { maxActive := some 5, active := [("r", 0)] }).2
        = { maxActive := some 5, active := [("r", 0)] }
    ∧ RateLimit.exit "r" { maxActive := some 5, active := [("r", 0)] }
        = { maxActive := some 5, active := [] } := by
  refine ⟨rfl, rfl, rfl, rfl, by decide⟩

/-! ## Claim C5 -/

/-- C5: with the limiter enabled (ceiling > 0) and the refresh interval not
elapsed, enter raises AppInvokeQuotaExceededError and records no new
membership whenever the current active count is at or above the ceiling;
otherwise it records request_id at the current time and returns request_id;
and after exit removes an existing record, a subsequent enter succeeds
again (slot reuse). -/
theorem C5_enter_quota_and_reuse (now : Nat) (rid rid₂ gid : String)
    (inst : RLInst) (r : RLRedis)
    (hen : 0 < inst.maxActiveRequests)
    (hfl : flushDue now inst = false)
    (hrid : rid ≠ "") (hrid₂ : rid₂ ≠ "") :
    (inst.maxActiveRequests ≤ (r.active.length : Int) →
        RateLimit.enter now (some rid) gid inst r
          = .error (.appInvokeQuotaExceeded quotaMsg))
    ∧ ((r.active.length : Int) < inst.maxActiveRequests →
        RateLimit.enter now (some rid) gid inst r
          = .ok (rid, inst, { r with active := hset r.active rid now }))
    ∧ (∀ req ts, (req, ts) ∈ r.active → req ≠ unlimitedRequestId →
        (r.active.length : Int) ≤ inst.maxActiveRequests →
        RateLimit.enter now (some rid₂) gid inst (RateLimit.exit req r)
          = .ok (rid₂, inst,
              { r with active := hset (hdel r.active req) rid₂ now })) := by
  have hdis : inst.disabled = false := by
    simp only [RLInst.disabled, decide_eq_false_iff_not, not_le]
    exact hen
  have hred : ∀ (rr : RLRedis) (rid' : String), rid' ≠ "" →
      RateLimit.enter now (some rid') gid inst rr
        = if inst.maxActiveRequests ≤ (rr.active.length : Int)
          then .error (.appInvokeQuotaExceeded quotaMsg)
          else .ok (rid', inst, { rr with active := hset rr.active rid' now }) := by
    intro rr rid' h
    simp [RateLimit.enter, hdis, hfl, h]
  refine ⟨?_, ?_, ?_⟩
  · intro hge
    rw [hred r rid hrid, if_pos hge]
  · intro hlt
    rw [hred r rid hrid, if_neg (not_le.mpr hlt)]
  · intro req ts hmem hnu hle
    have hex : RateLimit.exit req r = { r with active := hdel r.active req } := by
      simp [RateLimit.exit, hnu]
    have h1 : (hdel r.active req).length < r.active.length :=
      hdel_length_lt r.active req ts hmem
    have hlen : ((hdel r.active req).length : Int) < inst.maxActiveRequests := by
      omega
    rw [hex, hred { r with active := hdel r.active req } rid₂ hrid₂,
      if_neg (not_le.mpr hlen)]

def c5inst : RLInst := { maxActiveRequests := 1, inited := true, lastRecalc := some 100 }

def c5r1 : RLRedis := { maxActive := some 1, active := [("a", 10)] }

def c5r0 : RLRedis := { maxActive := some 1, active := [] }

/-- Witness for C5 at ceiling 1: a full limiter rejects, an empty one
admits, and after exit of the active request a new enter succeeds. -/
theorem C5_witness :
    RateLimit.enter 150 (some "b") "g" c5inst c5r1
        = .error (.appInvokeQuotaExceeded quotaMsg)
    ∧ RateLimit.enter 150 (some "b") "g" c5inst c5r0
        = .ok ("b", c5inst, { c5r0 with active := hset c5r0.active "b" 150 })
    ∧ RateLimit.enter 150 (some "c") "g" c5inst (RateLimit.exit "a" c5r1)
        = .ok ("c", c5inst,
            { c5r1 with active := hset (hdel c5r1.active "a") "c" 150 }) := by
  have h1 := C5_enter_quota_and_reuse 150 "b" "c" "g" c5inst c5r1 (by decide) rfl
    (by decide) (by decide)
  have h0 := C5_enter_quota_and_reuse 150 "b" "c" "g" c5inst c5r0 (by decide) rfl
    (by decide) (by decide)
  exact ⟨h1.1 (by decide), h0.2.1 (by decide),
    h1.2.2 "a" 10 (by decide) (by decide) (by decide)⟩

/-! ## Claim C9 -/

/-- C9: with the limiter disabled (ceiling ≤ 0), every enter returns the
unlimited sentinel with the instance and store untouched and never raises,
and exit on the sentinel performs no removal. -/
theorem C9_disabled_noop (now : Nat) (ridOpt : Option String) (gid : String)
    (inst : RLInst) (r : RLRedis)
    (hdis : inst.maxActiveRequests ≤ 0) :
    RateLimit.enter now ridOpt gid inst r = .ok (unlimitedRequestId, inst, r)
    ∧ RateLimit.exit unlimitedRequestId r = r := by
  have hd : inst.disabled = true := by
    simp only [RLInst.disabled, decide_eq_true_eq]
    exact hdis
  constructor
  · simp [RateLimit.enter, hd]
  · simp [RateLimit.exit]

def c9inst : RLInst := { maxActiveRequests := 0, inited := false, lastRecalc := none }

def c9r : RLRedis := { maxActive := none, active := [("a", 1)] }

/-- Witness for C9 at ceiling 0. -/
theorem C9_witness :
    RateLimit.enter 7 (some "x") "g" c9inst c9r = .ok (unlimitedRequestId, c9inst, c9r)
    ∧ RateLimit.exit unlimitedRequestId c9r = c9r :=
  C9_disabled_noop 7 (some "x") "g" c9inst c9r (by decide)

/-! ## Claim C10 -/

def c10r : RLRedis := { maxActive := none, active := [] }

/-- C10 counterexample: constructing RateLimit("c", 0) pools a disabled
instance for client c without touching the store; a second construction
RateLimit("c", 7) — although an instance for c already exists — runs the
initialization path and writes 7 to the shared store, contradicting the
claim that a construction over an existing instance overwrites the ceiling
without writing it to the shared store. -/
theorem C10_counterexample :
    (RateLimit.construct [] c10r "c" 0 5).2.maxActive = none
    ∧ (lookupInst (RateLimit.construct [] c10r "c" 0 5).1 "c").isSome = true
    ∧ (RateLimit.construct (RateLimit.construct [] c10r "c" 0 5).1
        (RateLimit.construct [] c10r "c" 0 5).2 "c" 7 6).2.maxActive = some 7 := by
  refine ⟨by decide, by decide, by decide⟩

/-- C10 (amended): RateLimit construction is a per-client_id singleton:
when an already-initialized instance exists for client_id, constructing
RateLimit(client_id, n) returns that same pooled instance with its
in-memory ceiling unconditionally overwritten to n and writes nothing to
the shared store — so a later n ≤ 0 makes the shared instance report
disabled and a later positive n is the ceiling used by subsequent enter
calls until the next cache flush; only when the pooled instance was never
initialized (every prior construction was disabled) does a construction
with positive n initialize it and seed the shared store with n. -/
theorem C10_singleton_overwrite (pool : List (String × RLInst)) (r : RLRedis)
    (c : String) (n : Int) (now : Nat) (inst : RLInst)
    (hl : lookupInst pool c = some inst) (hi : inst.inited = true) :
    RateLimit.construct pool r c n now
      = (updateInst pool c { inst with maxActiveRequests := n }, r) := by
  by_cases hd : ({ inst with maxActiveRequests := n } : RLInst).disabled = true
  · simp [RateLimit.construct, hl, hd]
  · simp [RateLimit.construct, hl, hd, hi]

def c10inst : RLInst := { maxActiveRequests := 3, inited := true, lastRecalc := some 0 }

def c10pool : List (String × RLInst) := [("c", c10inst)]

/-- Witness for the amended C10: re-construction over an initialized
instance with ceiling 0 disables it in memory and leaves the store alone. -/
theorem C10_witness :
    RateLimit.construct c10pool c10r "c" 0 9
      = (updateInst c10pool "c" { c10inst with maxActiveRequests := 0 }, c10r) :=
  C10_singleton_overwrite c10pool c10r "c" 0 9 c10inst rfl rfl
